import Mathlib

/-! CORINT FFI boundary: formal model and verification.

This development embeds the C-callable boundary of the CORINT decision
engine, declared in crates/corint-ffi/corint.h, as a shallow Lean model.
The header is the only code of the repository present; the boundary layer
behind it is modelled from the specification, definition by definition,
with external collaborators (filesystem repository loader, database
loader, JSON parser, schema owner, evaluation core) kept as parameters.

C strings crossing the boundary are modelled as lists of bytes (Nat,
each below 256, with no interior zero byte); the null pointer is the
none case of Option. Process state visible at the boundary (the logging
singleton, the set of live engine handles, the table of boundary-owned
strings) is an explicit record threaded through every operation.
-/

/-- The process state observable at the FFI boundary: the logging
singleton flag, a fresh-id counter, the ids of live engine handles, and
the table of boundary-owned strings (id paired with its byte contents,
terminator excluded). -/
structure BState where
  loggingInit : Bool
  nextId : Nat
  engines : List Nat
  strings : List (Nat × List Nat)
deriving DecidableEq, Repr

/-- Modelled from the spec (section 4.1): the logging bootstrap is a
process-wide idempotent one-shot; the boundary records only that the
singleton is initialized. The implementation behind corint_init_logging
is not in the sources. -/
def corint_init_logging (st : BState) : BState :=
  { st with loggingInit := true }

/-- Iterated calls of the logging bootstrap. -/
def initLoggingN : Nat → BState → BState
  | 0, st => st
  | n + 1, st => initLoggingN n (corint_init_logging st)

/-- Outcomes of the external filesystem repository loader, as enumerated
by the spec (section 4.2): success, or one of the failure causes that
corint_engine_new must map to the null sentinel. -/
inductive RepoLoad where
  | ok
  | notFound
  | notReadable
  | invalidContents
  | exhausted
deriving DecidableEq, Repr

/-- Modelled from the spec (section 4.2): corint_engine_new takes a path
(null pointer modelled as none), consults the external filesystem loader
on the path bytes, and either allocates a fresh engine handle or returns
the null sentinel with the state untouched. The implementation is not in
the sources; only its declaration in corint.h is. -/
def corint_engine_new (fs : List Nat → RepoLoad) (path : Option (List Nat))
    (st : BState) : Option Nat × BState :=
  match path with
  | none => (none, st)
  | some bs =>
    match fs bs with
    | RepoLoad.ok =>
      (some st.nextId,
        { st with nextId := st.nextId + 1, engines := st.nextId :: st.engines })
    | _ => (none, st)

/-- Outcomes of the external relational-database loader, as enumerated by
the spec (section 4.3): success, or one of the failure causes permitted
to yield the null sentinel (those of section 4.2 plus the database ones). -/
inductive DbLoad where
  | ok
  | unreachableHost
  | authRefused
  | schemaMismatch
  | poolInitFailed
  | invalidContents
  | exhausted
deriving DecidableEq, Repr

/-- Modelled from the spec (section 4.3): corint_engine_new_from_database
has the identical result shape to the filesystem factory, consulting the
external database loader on the connection-URL bytes. -/
def corint_engine_new_from_database (db : List Nat → DbLoad)
    (url : Option (List Nat)) (st : BState) : Option Nat × BState :=
  match url with
  | none => (none, st)
  | some bs =>
    match db bs with
    | DbLoad.ok =>
      (some st.nextId,
        { st with nextId := st.nextId + 1, engines := st.nextId :: st.engines })
    | _ => (none, st)

/-- Modelled from the spec (section 4.5): corint_engine_free on null is a
no-op; on a live handle it releases the engine's resources, removing the
handle from the live set. -/
def corint_engine_free (engine : Option Nat) (st : BState) : BState :=
  match engine with
  | none => st
  | some h => { st with engines := st.engines.erase h }

/-- Modelled from the spec (section 4.6): corint_string_free on null is a
no-op; on a boundary-produced pointer it returns the backing allocation
to the allocator that produced it, here the single boundary string table. -/
def corint_string_free (p : Option Nat) (st : BState) : BState :=
  match p with
  | none => st
  | some i => { st with strings := st.strings.filter (fun kv => kv.1 ≠ i) }

/-- Reads the bytes of a boundary-owned string through its pointer, none
when the pointer is null or does not denote a live boundary string. -/
def readString (st : BState) (p : Option Nat) : Option (List Nat) :=
  match p with
  | none => none
  | some i => (st.strings.find? (fun kv => kv.1 == i)).map (fun kv => kv.2)

/-! ## UTF-8

The spec requires every string crossing the boundary to be valid UTF-8
with a trailing zero byte. We model byte sequences explicitly: a strict
UTF-8 validator, the standard encoder from Unicode scalar values, and a
decoder used by the evaluator gateway to reject non-UTF-8 requests. -/

/-- A UTF-8 continuation byte: high bits 10. -/
def utf8Cont (b : Nat) : Bool := decide (0x80 ≤ b) && decide (b < 0xC0)

/-- The constraint on the first continuation byte of a three-byte
sequence, depending on the lead byte: rules out overlong forms and
surrogate encodings. -/
def utf8Lead3Cont (b b1 : Nat) : Bool :=
  if b = 0xE0 then decide (0xA0 ≤ b1) && decide (b1 < 0xC0)
  else if b = 0xED then decide (0x80 ≤ b1) && decide (b1 < 0xA0)
  else utf8Cont b1

/-- The constraint on the first continuation byte of a four-byte
sequence, depending on the lead byte: rules out overlong forms and
scalar values above 0x10FFFF. -/
def utf8Lead4Cont (b b1 : Nat) : Bool :=
  if b = 0xF0 then decide (0x90 ≤ b1) && decide (b1 < 0xC0)
  else if b = 0xF4 then decide (0x80 ≤ b1) && decide (b1 < 0x90)
  else utf8Cont b1

mutual
/-- Strict UTF-8 validity of a byte sequence: rejects overlong forms,
surrogate encodings and scalar values above 0x10FFFF. -/
def utf8Valid : List Nat → Bool
  | [] => true
  | b :: rest =>
    if b < 0x80 then utf8Valid rest
    else if b < 0xC2 then false
    else if b < 0xE0 then utf8ValidCont1 rest
    else if b < 0xF0 then utf8ValidCont2 b rest
    else if b < 0xF5 then utf8ValidCont3 b rest
    else false
/-- Checks the one continuation byte of a two-byte sequence, then the
rest. -/
def utf8ValidCont1 : List Nat → Bool
  | b1 :: r => utf8Cont b1 && utf8Valid r
  | [] => false
/-- Checks the two continuation bytes of a three-byte sequence with lead
byte b, then the rest. -/
def utf8ValidCont2 (b : Nat) : List Nat → Bool
  | b1 :: b2 :: r => utf8Lead3Cont b b1 && utf8Cont b2 && utf8Valid r
  | _ => false
/-- Checks the three continuation bytes of a four-byte sequence with
lead byte b, then the rest. -/
def utf8ValidCont3 (b : Nat) : List Nat → Bool
  | b1 :: b2 :: b3 :: r => utf8Lead4Cont b b1 && utf8Cont b2 && utf8Cont b3 && utf8Valid r
  | _ => false
end

/-- UTF-8 encoding of a single Unicode scalar value given as a Nat. -/
def utf8EncodeNat (n : Nat) : List Nat :=
  if n < 0x80 then [n]
  else if n < 0x800 then [0xC0 + n / 64, 0x80 + n % 64]
  else if n < 0x10000 then
    [0xE0 + n / 4096, 0x80 + n / 64 % 64, 0x80 + n % 64]
  else
    [0xF0 + n / 262144, 0x80 + n / 4096 % 64, 0x80 + n / 64 % 64, 0x80 + n % 64]

/-- UTF-8 encoding of a character. -/
def utf8EncodeChar (c : Char) : List Nat := utf8EncodeNat c.toNat

/-- UTF-8 encoding of a character sequence. -/
def utf8Encode : List Char → List Nat
  | [] => []
  | c :: cs => utf8EncodeChar c ++ utf8Encode cs

/-- UTF-8 decoding of a byte sequence into characters; none exactly when
the bytes are not strictly valid UTF-8. -/
def utf8Decode : List Nat → Option (List Char)
  | [] => some []
  | b :: rest =>
    if b < 0x80 then (utf8Decode rest).map (fun cs => Char.ofNat b :: cs)
    else if b < 0xC2 then none
    else if b < 0xE0 then
      match rest with
      | b1 :: r =>
        if utf8Cont b1 then
          (utf8Decode r).map (fun cs => Char.ofNat ((b - 0xC0) * 64 + (b1 - 0x80)) :: cs)
        else none
      | [] => none
    else if b < 0xF0 then
      match rest with
      | b1 :: b2 :: r =>
        if ((if b = 0xE0 then decide (0xA0 ≤ b1) && decide (b1 < 0xC0)
             else if b = 0xED then decide (0x80 ≤ b1) && decide (b1 < 0xA0)
             else utf8Cont b1) && utf8Cont b2) then
          (utf8Decode r).map
            (fun cs => Char.ofNat ((b - 0xE0) * 4096 + (b1 - 0x80) * 64 + (b2 - 0x80)) :: cs)
        else none
      | _ => none
    else if b < 0xF5 then
      match rest with
      | b1 :: b2 :: b3 :: r =>
        if ((if b = 0xF0 then decide (0x90 ≤ b1) && decide (b1 < 0xC0)
             else if b = 0xF4 then decide (0x80 ≤ b1) && decide (b1 < 0x90)
             else utf8Cont b1) && utf8Cont b2 && utf8Cont b3) then
          (utf8Decode r).map
            (fun cs => Char.ofNat
              ((b - 0xF0) * 262144 + (b1 - 0x80) * 4096 + (b2 - 0x80) * 64 + (b3 - 0x80)) :: cs)
        else none
      | _ => none
    else none

/-! ## JSON

Request and response payloads are JSON documents (spec section 6). The
response the gateway returns is the serialization of a JSON value
produced by the evaluation core; we embed a JSON value type and its
serializer, sufficient to state that every successful response is a
zero-terminated UTF-8 JSON document. -/

mutual
/-- A JSON value. -/
inductive Json : Type where
  | null : Json
  | bool : Bool → Json
  | num : Int → Json
  | str : String → Json
  | arr : JsonList → Json
  | obj : JsonObj → Json
/-- The elements of a JSON array. -/
inductive JsonList : Type where
  | nil : JsonList
  | cons : Json → JsonList → JsonList
/-- The key-value members of a JSON object. -/
inductive JsonObj : Type where
  | nil : JsonObj
  | cons : String → Json → JsonObj → JsonObj
end

/-- The decimal digit character for a value below ten. -/
def digitChar (n : Nat) : Char :=
  match n with
  | 0 => '0' | 1 => '1' | 2 => '2' | 3 => '3' | 4 => '4'
  | 5 => '5' | 6 => '6' | 7 => '7' | 8 => '8' | _ => '9'

/-- The lowercase hexadecimal digit character for a value below sixteen. -/
def hexDigit (n : Nat) : Char :=
  match n with
  | 0 => '0' | 1 => '1' | 2 => '2' | 3 => '3' | 4 => '4'
  | 5 => '5' | 6 => '6' | 7 => '7' | 8 => '8' | 9 => '9'
  | 10 => 'a' | 11 => 'b' | 12 => 'c' | 13 => 'd' | 14 => 'e' | _ => 'f'

/-- Accumulates the decimal digits of a natural number, most significant
first, in front of the accumulator. -/
def natDigitsAux : Nat → List Char → List Char
  | 0, acc => acc
  | n + 1, acc => natDigitsAux ((n + 1) / 10) (digitChar ((n + 1) % 10) :: acc)
termination_by n _ => n
decreasing_by simp_wf; omega

/-- The decimal digit characters of a natural number. -/
def natDigits (n : Nat) : List Char :=
  if n = 0 then ['0'] else natDigitsAux n []

/-- The decimal rendering of an integer, with a leading minus sign when
negative. -/
def renderInt (i : Int) : List Char :=
  if i < 0 then '-' :: natDigits i.natAbs else natDigits i.toNat

/-- JSON escaping of one character inside a string literal: quote and
backslash are backslash-escaped, control characters take the six-character
u-escape form, all other characters stand for themselves. -/
def escapeChar (c : Char) : List Char :=
  if c = '"' then ['\\', '"']
  else if c = '\\' then ['\\', '\\']
  else if c.toNat < 0x20 then
    ['\\', 'u', '0', '0', hexDigit (c.toNat / 16), hexDigit (c.toNat % 16)]
  else [c]

/-- JSON escaping of a character sequence. -/
def escapeList : List Char → List Char
  | [] => []
  | c :: cs => escapeChar c ++ escapeList cs

/-- A JSON string literal: quoted, contents escaped. -/
def renderStr (s : List Char) : List Char :=
  '"' :: escapeList s ++ ['"']

mutual
/-- Serializes a JSON value to its document text. -/
def render : Json → List Char
  | Json.null => ['n', 'u', 'l', 'l']
  | Json.bool true => ['t', 'r', 'u', 'e']
  | Json.bool false => ['f', 'a', 'l', 's', 'e']
  | Json.num i => renderInt i
  | Json.str s => renderStr s.data
  | Json.arr xs => '[' :: renderList xs ++ [']']
  | Json.obj kvs => '\x7b' :: renderObj kvs ++ ['\x7d']
/-- Serializes array elements, comma-separated. -/
def renderList : JsonList → List Char
  | JsonList.nil => []
  | JsonList.cons x JsonList.nil => render x
  | JsonList.cons x (JsonList.cons y tl) =>
    render x ++ ',' :: renderList (JsonList.cons y tl)
/-- Serializes object members, comma-separated, keys colon-separated from
values. -/
def renderObj : JsonObj → List Char
  | JsonObj.nil => []
  | JsonObj.cons k v JsonObj.nil => renderStr k.data ++ ':' :: render v
  | JsonObj.cons k v (JsonObj.cons k2 v2 tl) =>
    renderStr k.data ++ ':' :: render v ++ ',' :: renderObj (JsonObj.cons k2 v2 tl)
end

/-- A byte sequence is a JSON document when it is the UTF-8 encoding of
the serialization of some JSON value. -/
def IsJsonDocument (bs : List Nat) : Prop :=
  ∃ j : Json, bs = utf8Encode (render j)

/-! ## Evaluator gateway and version accessor -/

/-- Modelled from the spec (sections 2 and 6): the external collaborators
behind the evaluator gateway — the JSON parser with the request schema
owner, and the rule-evaluation core. The core returns a JSON response
value, or an error for an engine-internal evaluation failure. None of
this code is in the sources. -/
structure EvalCore where
  parse : List Char → Option Json
  schemaOk : Json → Bool
  eval : Json → Except Unit Json

/-- Modelled from the spec (section 4.4): corint_engine_decide validates
the handle and the request — null handle, null request, request not
valid UTF-8, request not well-formed JSON, request rejected by the
schema, engine-internal evaluation error, and allocation failure during
response construction (the allocOk flag) all degrade to the null
sentinel — and on success allocates a fresh boundary-owned string
holding the UTF-8 serialization of the core's JSON response. The model
is a total function: no exceptional control flow escapes it. -/
def corint_engine_decide (core : EvalCore) (allocOk : Bool)
    (engine : Option Nat) (request : Option (List Nat))
    (st : BState) : Option Nat × BState :=
  match engine with
  | none => (none, st)
  | some h =>
    match request with
    | none => (none, st)
    | some bs =>
      if h ∈ st.engines then
        match utf8Decode bs with
        | none => (none, st)
        | some s =>
          match core.parse s with
          | none => (none, st)
          | some j =>
            if core.schemaOk j then
              match core.eval j with
              | Except.error _ => (none, st)
              | Except.ok resp =>
                if allocOk then
                  (some st.nextId,
                    { st with
                        nextId := st.nextId + 1,
                        strings := (st.nextId, utf8Encode (render resp)) :: st.strings })
                else (none, st)
            else (none, st)
      else (none, st)

/-- Modelled from the spec (section 4.7): the version value is an
engine-build decision, stable within a build and non-empty; the model
fixes it as a constant. -/
def corintVersionBytes : List Nat := utf8Encode "0.1.0".data

/-- Modelled from the spec (section 4.7): corint_version allocates a
fresh boundary-owned string holding the build's version value and
returns its pointer; it has no failure case. -/
def corint_version (st : BState) : Option Nat × BState :=
  (some st.nextId,
    { st with
        nextId := st.nextId + 1,
        strings := (st.nextId, corintVersionBytes) :: st.strings })

/-! ## The header's declarations

corint.h is the one source file of the repository; its seven prototypes
are embedded verbatim as a declaration table, so that claims about the
interface itself (parameter const-ness, the documented database backend)
are settled against the source text. -/

/-- A C type as it appears in the prototypes of corint.h. -/
inductive CType where
  | void
  | voidPtr
  | charPtr
  | constCharPtr
deriving DecidableEq, Repr

/-- One C function prototype: name, argument types, return type. -/
structure CDecl where
  name : String
  args : List CType
  ret : CType
deriving DecidableEq, Repr

/-- The seven prototypes of corint.h, in declaration order. CorintEngine
is a typedef for a void pointer. -/
def corintHeader : List CDecl :=
  [⟨"corint_init_logging", [], CType.void⟩,
   ⟨"corint_engine_new", [CType.constCharPtr], CType.voidPtr⟩,
   ⟨"corint_engine_new_from_database", [CType.constCharPtr], CType.voidPtr⟩,
   ⟨"corint_engine_decide", [CType.voidPtr, CType.constCharPtr], CType.charPtr⟩,
   ⟨"corint_engine_free", [CType.voidPtr], CType.void⟩,
   ⟨"corint_string_free", [CType.charPtr], CType.void⟩,
   ⟨"corint_version", [], CType.charPtr⟩]

/-- The argument types a prototype of corint.h declares for a function
name. -/
def headerArgs (s : String) : Option (List CType) :=
  (corintHeader.find? (fun d => d.name == s)).map (fun d => d.args)

/-- The doc comment of corint_engine_new_from_database in corint.h,
embedded verbatim. -/
def dbFactoryDoc : String :=
  "Create a new decision engine from a PostgreSQL database\n\n" ++
  "@param database_url PostgreSQL connection URL\n" ++
  "@return Engine handle, or NULL on failure"

/-! ## Concrete fixtures

Concrete collaborators and states used to exercise the model at explicit
inputs. -/

/-- A trivially accepting evaluation core: every request parses to the
empty object, passes the schema, and is echoed back by the core. -/
def echoCore : EvalCore :=
  ⟨fun _ => some (Json.obj JsonObj.nil), fun _ => true, fun j => Except.ok j⟩

/-- A filesystem loader for which every path is missing. -/
def fsMissing : List Nat → RepoLoad := fun _ => RepoLoad.notFound

/-- A boundary state with a single live engine handle 0 and no strings. -/
def stOneEngine : BState := ⟨false, 1, [0], []⟩

/-- The empty boundary state. -/
def stEmpty : BState := ⟨false, 0, [], []⟩

/-- The bytes of the request text consisting of an open and a close
brace: the smallest JSON object document. -/
def reqBytes : List Nat := [123, 125]

/-- The characters of that request text. -/
def reqChars : List Char := ['\x7b', '\x7d']

/-! ## Lemmas: UTF-8 encoding is valid and zero-free -/

/-- The UTF-8 encoding of one valid Unicode scalar value, followed by
anything, is valid exactly when the remainder is. -/
theorem utf8Valid_encodeNat (n : Nat)
    (hv : n < 0xD800 ∨ (0xDFFF < n ∧ n < 0x110000)) (rest : List Nat) :
    utf8Valid (utf8EncodeNat n ++ rest) = utf8Valid rest := by
  by_cases h1 : n < 0x80
  · simp [utf8EncodeNat, h1, utf8Valid]
  · by_cases h2 : n < 0x800
    · have hA : ¬ (0xC0 + n / 64 < 0x80) := by omega
      have hB : ¬ (0xC0 + n / 64 < 0xC2) := by omega
      have hC : 0xC0 + n / 64 < 0xE0 := by omega
      have hD : 0x80 ≤ 0x80 + n % 64 := by omega
      have hE : 0x80 + n % 64 < 0xC0 := by omega
      simp [utf8EncodeNat, h1, h2, utf8Valid, utf8ValidCont1, utf8Cont, hA, hB, hC, hD, hE]
    · by_cases h3 : n < 0x10000
      · have hF : 0x80 ≤ 0x80 + n % 64 := by omega
        have hG : 0x80 + n % 64 < 0xC0 := by omega
        by_cases ha : n < 0x1000
        · have hb0 : n / 4096 = 0 := by omega
          have hD : 0xA0 ≤ 0x80 + n / 64 % 64 := by omega
          have hE : 0x80 + n / 64 % 64 < 0xC0 := by omega
          simp [utf8EncodeNat, h1, h2, h3, utf8Valid, utf8ValidCont2, utf8Lead3Cont,
            utf8Cont, hb0, hD, hE, hF, hG]
        · by_cases hbs : 0xD000 ≤ n ∧ n < 0xE000
          · have hb13 : n / 4096 = 13 := by omega
            have hD : 0x80 ≤ 0x80 + n / 64 % 64 := by omega
            have hE : 0x80 + n / 64 % 64 < 0xA0 := by omega
            simp [utf8EncodeNat, h1, h2, h3, utf8Valid, utf8ValidCont2, utf8Lead3Cont,
              utf8Cont, hb13, hD, hE, hF, hG]
          · have hA : ¬ (0xE0 + n / 4096 < 0x80) := by omega
            have hB : ¬ (0xE0 + n / 4096 < 0xC2) := by omega
            have hC : ¬ (0xE0 + n / 4096 < 0xE0) := by omega
            have hD : 0xE0 + n / 4096 < 0xF0 := by omega
            have hE : ¬ (0xE0 + n / 4096 = 0xE0) := by omega
            have hH : ¬ (0xE0 + n / 4096 = 0xED) := by omega
            have hI : 0x80 ≤ 0x80 + n / 64 % 64 := by omega
            have hJ : 0x80 + n / 64 % 64 < 0xC0 := by omega
            simp [utf8EncodeNat, h1, h2, h3, utf8Valid, utf8ValidCont2, utf8Lead3Cont,
              utf8Cont, hA, hB, hC, hD, hE, hH, hI, hJ, hF, hG]
      · have hn4 : n < 0x110000 := by omega
        have hF : 0x80 ≤ 0x80 + n % 64 := by omega
        have hG : 0x80 + n % 64 < 0xC0 := by omega
        have hI : 0x80 ≤ 0x80 + n / 64 % 64 := by omega
        have hJ : 0x80 + n / 64 % 64 < 0xC0 := by omega
        by_cases ha : n < 0x40000
        · have hb0 : n / 262144 = 0 := by omega
          have hD : 0x90 ≤ 0x80 + n / 4096 % 64 := by omega
          have hE : 0x80 + n / 4096 % 64 < 0xC0 := by omega
          simp [utf8EncodeNat, h1, h2, h3, utf8Valid, utf8ValidCont3, utf8Lead4Cont,
            utf8Cont, hb0, hD, hE, hI, hJ, hF, hG]
        · by_cases hbs : 0x100000 ≤ n
          · have hb4 : n / 262144 = 4 := by omega
            have hD : 0x80 ≤ 0x80 + n / 4096 % 64 := by omega
            have hE : 0x80 + n / 4096 % 64 < 0x90 := by omega
            simp [utf8EncodeNat, h1, h2, h3, utf8Valid, utf8ValidCont3, utf8Lead4Cont,
              utf8Cont, hb4, hD, hE, hI, hJ, hF, hG]
          · have hA : ¬ (0xF0 + n / 262144 < 0x80) := by omega
            have hB : ¬ (0xF0 + n / 262144 < 0xC2) := by omega
            have hC : ¬ (0xF0 + n / 262144 < 0xE0) := by omega
            have hD : ¬ (0xF0 + n / 262144 < 0xF0) := by omega
            have hE : 0xF0 + n / 262144 < 0xF5 := by omega
            have hH : ¬ (0xF0 + n / 262144 = 0xF0) := by omega
            have hK : ¬ (0xF0 + n / 262144 = 0xF4) := by omega
            have hL : 0x80 ≤ 0x80 + n / 4096 % 64 := by omega
            have hM : 0x80 + n / 4096 % 64 < 0xC0 := by omega
            simp [utf8EncodeNat, h1, h2, h3, utf8Valid, utf8ValidCont3, utf8Lead4Cont,
              utf8Cont, hA, hB, hC, hD, hE, hH, hK, hL, hM, hI, hJ, hF, hG]

/-- The UTF-8 encoding of any character sequence passes the strict
validator. -/
theorem utf8Valid_utf8Encode (l : List Char) : utf8Valid (utf8Encode l) = true := by
  induction l with
  | nil => rfl
  | cons c cs ih =>
    show utf8Valid (utf8EncodeNat c.toNat ++ utf8Encode cs) = true
    rw [utf8Valid_encodeNat c.toNat c.valid, ih]

/-- The encoding of a nonzero scalar value contains no zero byte. -/
theorem utf8EncodeNat_ne_zero (n : Nat) (hn : n ≠ 0) : 0 ∉ utf8EncodeNat n := by
  by_cases h1 : n < 0x80
  · simp [utf8EncodeNat, h1]; omega
  · by_cases h2 : n < 0x800
    · simp [utf8EncodeNat, h1, h2]; omega
    · by_cases h3 : n < 0x10000
      · simp [utf8EncodeNat, h1, h2, h3]; omega
      · simp [utf8EncodeNat, h1, h2, h3]; omega

/-- The encoding of a sequence of nonzero characters contains no zero
byte. -/
theorem zero_not_mem_utf8Encode (l : List Char) (h : ∀ c ∈ l, c.toNat ≠ 0) :
    0 ∉ utf8Encode l := by
  induction l with
  | nil => simp [utf8Encode]
  | cons c cs ih =>
    intro hmem
    rcases List.mem_append.mp hmem with h1 | h2
    · exact utf8EncodeNat_ne_zero c.toNat (h c (List.mem_cons_self c cs)) h1
    · exact ih (fun d hd => h d (List.mem_cons_of_mem c hd)) h2

/-- Decimal digit characters are nonzero. -/
theorem digitChar_ne_zero (n : Nat) : (digitChar n).toNat ≠ 0 := by
  unfold digitChar
  split <;> decide

/-- Hexadecimal digit characters are nonzero. -/
theorem hexDigit_ne_zero (n : Nat) : (hexDigit n).toNat ≠ 0 := by
  unfold hexDigit
  split <;> decide

/-- The digit accumulator only ever produces nonzero characters. -/
theorem natDigitsAux_ne_zero : ∀ (n : Nat) (acc : List Char),
    (∀ c ∈ acc, c.toNat ≠ 0) → ∀ c ∈ natDigitsAux n acc, c.toNat ≠ 0
  | 0, acc, h => by simpa [natDigitsAux] using h
  | n + 1, acc, h => by
    have hrec := natDigitsAux_ne_zero ((n + 1) / 10)
      (digitChar ((n + 1) % 10) :: acc)
      (by
        intro c hc
        rcases List.mem_cons.mp hc with hc | hc
        · subst hc; exact digitChar_ne_zero _
        · exact h c hc)
    simpa [natDigitsAux] using hrec
  termination_by n _ _ => n
  decreasing_by simp_wf; omega

/-- The decimal rendering of a natural number contains no zero
character. -/
theorem natDigits_ne_zero (n : Nat) : ∀ c ∈ natDigits n, c.toNat ≠ 0 := by
  unfold natDigits
  by_cases h : n = 0
  · simp [h]
  · simp [h]
    exact fun c hc => natDigitsAux_ne_zero n [] (by simp) c hc

/-- The decimal rendering of an integer contains no zero character. -/
theorem renderInt_ne_zero (i : Int) : ∀ c ∈ renderInt i, c.toNat ≠ 0 := by
  unfold renderInt
  by_cases h : i < 0
  · simp only [h, if_pos]
    intro c hc
    rcases List.mem_cons.mp hc with hc | hc
    · subst hc; decide
    · exact natDigits_ne_zero _ c hc
  · simp only [h, if_neg, not_false_iff]
    exact natDigits_ne_zero _

/-- The JSON escaping of any character produces only nonzero
characters. -/
theorem escapeChar_ne_zero (c : Char) : ∀ d ∈ escapeChar c, d.toNat ≠ 0 := by
  unfold escapeChar
  by_cases h1 : c = '"'
  · simp [h1]
  · by_cases h2 : c = '\\'
    · simp [h1, h2]
    · by_cases h3 : c.toNat < 0x20
      · simp only [h1, h2, h3, if_pos, if_neg, not_false_iff]
        intro d hd
        simp only [List.mem_cons, List.not_mem_nil, or_false] at hd
        rcases hd with rfl | rfl | rfl | rfl | rfl | rfl
        · decide
        · decide
        · decide
        · decide
        · exact hexDigit_ne_zero _
        · exact hexDigit_ne_zero _
      · simp only [h1, h2, h3, if_neg, not_false_iff]
        intro d hd
        rcases List.mem_singleton.mp hd with rfl
        omega

/-- The JSON escaping of a character sequence produces only nonzero
characters. -/
theorem escapeList_ne_zero (s : List Char) : ∀ d ∈ escapeList s, d.toNat ≠ 0 := by
  induction s with
  | nil => simp [escapeList]
  | cons c cs ih =>
    intro d hd
    rcases List.mem_append.mp hd with hd | hd
    · exact escapeChar_ne_zero c d hd
    · exact ih d hd

/-- A rendered JSON string literal contains no zero character. -/
theorem renderStr_ne_zero (s : List Char) : ∀ d ∈ renderStr s, d.toNat ≠ 0 := by
  intro d hd
  unfold renderStr at hd
  rcases List.mem_cons.mp hd with rfl | hd
  · decide
  rcases List.mem_append.mp hd with hd | hd
  · exact escapeList_ne_zero s d hd
  · rcases List.mem_singleton.mp hd with rfl; decide

mutual
/-- The serialization of a JSON value contains no zero character. -/
theorem render_ne_zero : ∀ (j : Json), ∀ c ∈ render j, c.toNat ≠ 0
  | Json.null => by decide
  | Json.bool b => by cases b <;> decide
  | Json.num i => renderInt_ne_zero i
  | Json.str s => renderStr_ne_zero s.data
  | Json.arr xs => by
    intro c hc
    simp only [render] at hc
    rcases List.mem_cons.mp hc with rfl | hc
    · decide
    rcases List.mem_append.mp hc with hc | hc
    · exact renderList_ne_zero xs c hc
    · rcases List.mem_singleton.mp hc with rfl; decide
  | Json.obj kvs => by
    intro c hc
    simp only [render] at hc
    rcases List.mem_cons.mp hc with rfl | hc
    · decide
    rcases List.mem_append.mp hc with hc | hc
    · exact renderObj_ne_zero kvs c hc
    · rcases List.mem_singleton.mp hc with rfl; decide
/-- The serialization of JSON array elements contains no zero
character. -/
theorem renderList_ne_zero : ∀ (xs : JsonList), ∀ c ∈ renderList xs, c.toNat ≠ 0
  | JsonList.nil => by simp [renderList]
  | JsonList.cons x JsonList.nil => by
    intro c hc
    simp only [renderList] at hc
    exact render_ne_zero x c hc
  | JsonList.cons x (JsonList.cons y tl) => by
    intro c hc
    simp only [renderList] at hc
    rcases List.mem_append.mp hc with hc | hc
    · exact render_ne_zero x c hc
    · rcases List.mem_cons.mp hc with rfl | hc
      · decide
      · exact renderList_ne_zero (JsonList.cons y tl) c hc
/-- The serialization of JSON object members contains no zero
character. -/
theorem renderObj_ne_zero : ∀ (kvs : JsonObj), ∀ c ∈ renderObj kvs, c.toNat ≠ 0
  | JsonObj.nil => by simp [renderObj]
  | JsonObj.cons k v JsonObj.nil => by
    intro c hc
    simp only [renderObj] at hc
    rcases List.mem_append.mp hc with hc | hc
    · exact renderStr_ne_zero k.data c hc
    · rcases List.mem_cons.mp hc with rfl | hc
      · decide
      · exact render_ne_zero v c hc
  | JsonObj.cons k v (JsonObj.cons k2 v2 tl) => by
    intro c hc
    simp only [renderObj] at hc
    rcases List.mem_append.mp hc with hc | hc
    · rcases List.mem_append.mp hc with hc | hc
      · exact renderStr_ne_zero k.data c hc
      · rcases List.mem_cons.mp hc with rfl | hc
        · decide
        · exact render_ne_zero v c hc
    · rcases List.mem_cons.mp hc with rfl | hc
      · decide
      · exact renderObj_ne_zero (JsonObj.cons k2 v2 tl) c hc
end

/-- Inversion of a successful evaluator call: the returned pointer is the
fresh id and the post state extends the string table by exactly the
response allocation. -/
theorem corint_engine_decide_success_inv (core : EvalCore) (allocOk : Bool)
    (engine : Option Nat) (request : Option (List Nat)) (st : BState)
    (p : Nat) (st2 : BState)
    (heq : corint_engine_decide core allocOk engine request st = (some p, st2)) :
    p = st.nextId ∧ ∃ out,
      st2 = { st with
                nextId := st.nextId + 1,
                strings := (st.nextId, out) :: st.strings } := by
  unfold corint_engine_decide at heq
  cases engine with
  | none => exact absurd heq (by simp)
  | some h =>
    cases request with
    | none => exact absurd heq (by simp)
    | some bs =>
      simp only at heq
      split at heq
      · cases hd : utf8Decode bs with
        | none => rw [hd] at heq; exact absurd heq (by simp)
        | some s =>
          rw [hd] at heq
          simp only at heq
          cases hp : core.parse s with
          | none => rw [hp] at heq; exact absurd heq (by simp)
          | some j =>
            rw [hp] at heq
            simp only at heq
            split at heq
            · cases he : core.eval j with
              | error e => rw [he] at heq; exact absurd heq (by simp)
              | ok resp =>
                rw [he] at heq
                simp only at heq
                split at heq
                · rcases Prod.mk.injEq .. ▸ heq with ⟨h1, h2⟩
                  exact ⟨by simpa using h1.symm, utf8Encode (render resp), h2.symm⟩
                · exact absurd heq (by simp)
            · exact absurd heq (by simp)
      · exact absurd heq (by simp)

/-- Releasing the freshly allocated string of a post-call state restores
the string table, provided all prior ids are below the fresh one. -/
theorem corint_string_free_fresh (st : BState) (out : List Nat)
    (hw : ∀ kv ∈ st.strings, kv.1 < st.nextId) :
    (corint_string_free (some st.nextId)
      { st with
          nextId := st.nextId + 1,
          strings := (st.nextId, out) :: st.strings }).strings = st.strings := by
  simp only [corint_string_free]
  rw [List.filter_cons_of_neg (by simp)]
  exact List.filter_eq_self.mpr (fun kv hkv => by simpa using Nat.ne_of_lt (hw kv hkv))

/-- Claim C1: each factory returns either a non-null engine handle or the
null sentinel, and it returns a non-null handle exactly on success of the
external loader on a non-null input; hence every enumerated failure —
null path or URL pointer, path not found, path not readable, repository
contents invalid or unparseable, resource exhaustion, unreachable host,
authentication refused, schema mismatch, connection-pool initialization
failure — maps to the null sentinel, for corint_engine_new and
corint_engine_new_from_database alike. -/
theorem factories_null_on_failure (fs : List Nat → RepoLoad)
    (db : List Nat → DbLoad) (path url : Option (List Nat)) (st : BState) :
    ((corint_engine_new fs path st).1 = none ∨
      ∃ bs, path = some bs ∧ fs bs = RepoLoad.ok ∧
        (corint_engine_new fs path st).1 = some st.nextId) ∧
    ((corint_engine_new_from_database db url st).1 = none ∨
      ∃ bs, url = some bs ∧ db bs = DbLoad.ok ∧
        (corint_engine_new_from_database db url st).1 = some st.nextId) := by
  constructor
  · cases path with
    | none => exact Or.inl rfl
    | some bs =>
      cases h : fs bs with
      | ok => exact Or.inr ⟨bs, rfl, h, by simp [corint_engine_new, h]⟩
      | notFound => exact Or.inl (by simp [corint_engine_new, h])
      | notReadable => exact Or.inl (by simp [corint_engine_new, h])
      | invalidContents => exact Or.inl (by simp [corint_engine_new, h])
      | exhausted => exact Or.inl (by simp [corint_engine_new, h])
  · cases url with
    | none => exact Or.inl rfl
    | some bs =>
      cases h : db bs with
      | ok => exact Or.inr ⟨bs, rfl, h, by simp [corint_engine_new_from_database, h]⟩
      | unreachableHost => exact Or.inl (by simp [corint_engine_new_from_database, h])
      | authRefused => exact Or.inl (by simp [corint_engine_new_from_database, h])
      | schemaMismatch => exact Or.inl (by simp [corint_engine_new_from_database, h])
      | poolInitFailed => exact Or.inl (by simp [corint_engine_new_from_database, h])
      | invalidContents => exact Or.inl (by simp [corint_engine_new_from_database, h])
      | exhausted => exact Or.inl (by simp [corint_engine_new_from_database, h])

/-- Claim C2: every failure condition of corint_engine_decide — null
handle, null request pointer, request not valid UTF-8, request not
well-formed JSON, request rejected by the engine's schema,
engine-internal evaluation error, or resource exhaustion during response
construction — yields the null sentinel: the call returns the null
sentinel unless every one of those conditions is absent (in which case it
returns a non-null pointer). The model is a total function, so no
exceptional control-flow signal crosses the boundary. -/
theorem decide_null_on_failure (core : EvalCore) (allocOk : Bool)
    (engine : Option Nat) (request : Option (List Nat)) (st : BState) :
    (corint_engine_decide core allocOk engine request st).1 = none ∨
    ∃ h bs s j resp,
      engine = some h ∧ h ∈ st.engines ∧ request = some bs ∧
      utf8Decode bs = some s ∧ core.parse s = some j ∧
      core.schemaOk j = true ∧ core.eval j = Except.ok resp ∧
      allocOk = true ∧
      (corint_engine_decide core allocOk engine request st).1 = some st.nextId := by
  cases engine with
  | none => exact Or.inl rfl
  | some h =>
    cases request with
    | none => exact Or.inl rfl
    | some bs =>
      by_cases hmem : h ∈ st.engines
      · cases hd : utf8Decode bs with
        | none => exact Or.inl (by simp [corint_engine_decide, hmem, hd])
        | some s =>
          cases hp : core.parse s with
          | none => exact Or.inl (by simp [corint_engine_decide, hmem, hd, hp])
          | some j =>
            by_cases hs : core.schemaOk j = true
            · cases he : core.eval j with
              | error e =>
                exact Or.inl (by simp [corint_engine_decide, hmem, hd, hp, hs, he])
              | ok resp =>
                cases allocOk with
                | false =>
                  exact Or.inl (by simp [corint_engine_decide, hmem, hd, hp, hs, he])
                | true =>
                  exact Or.inr ⟨h, bs, s, j, resp, rfl, hmem, rfl, hd, hp, hs, he, rfl,
                    by simp [corint_engine_decide, hmem, hd, hp, hs, he]⟩
            · exact Or.inl (by simp [corint_engine_decide, hmem, hd, hp, hs])
      · exact Or.inl (by simp [corint_engine_decide, hmem])

/-- Claim C3: for a live engine handle and a request the engine accepts
as valid (it decodes as UTF-8, parses as JSON, satisfies the engine's
schema and evaluates without internal error), corint_engine_decide
returns a non-null pointer to a boundary-owned byte string that is
strictly valid UTF-8, contains no zero byte (so it carries a
well-defined zero terminator), and is a JSON document: the UTF-8
serialization of the core's JSON response value. -/
theorem decide_valid_request_json (core : EvalCore) (h : Nat)
    (bs : List Nat) (s : List Char) (j resp : Json) (st : BState)
    (hmem : h ∈ st.engines) (hd : utf8Decode bs = some s)
    (hp : core.parse s = some j) (hs : core.schemaOk j = true)
    (he : core.eval j = Except.ok resp) :
    ∃ p out,
      (corint_engine_decide core true (some h) (some bs) st).1 = some p ∧
      readString (corint_engine_decide core true (some h) (some bs) st).2
        (some p) = some out ∧
      utf8Valid out = true ∧ 0 ∉ out ∧ IsJsonDocument out := by
  refine ⟨st.nextId, utf8Encode (render resp), ?_, ?_, ?_, ?_, ?_⟩
  · simp [corint_engine_decide, hmem, hd, hp, hs, he]
  · simp [corint_engine_decide, hmem, hd, hp, hs, he, readString, List.find?]
  · exact utf8Valid_utf8Encode _
  · exact zero_not_mem_utf8Encode _ (render_ne_zero resp)
  · exact ⟨resp, rfl⟩

/-- Witness for claim C3: the hypotheses hold and the conclusion follows
at a concrete engine state, core and request. -/
theorem decide_valid_request_json_witness :
    (0 ∈ stOneEngine.engines) ∧
    utf8Decode reqBytes = some reqChars ∧
    echoCore.parse reqChars = some (Json.obj JsonObj.nil) ∧
    echoCore.schemaOk (Json.obj JsonObj.nil) = true ∧
    echoCore.eval (Json.obj JsonObj.nil) = Except.ok (Json.obj JsonObj.nil) ∧
    ∃ p out,
      (corint_engine_decide echoCore true (some 0) (some reqBytes) stOneEngine).1 = some p ∧
      readString (corint_engine_decide echoCore true (some 0) (some reqBytes) stOneEngine).2
        (some p) = some out ∧
      utf8Valid out = true ∧ 0 ∉ out ∧ IsJsonDocument out :=
  ⟨by decide, rfl, rfl, rfl, rfl,
    decide_valid_request_json echoCore 0 reqBytes reqChars (Json.obj JsonObj.nil)
      (Json.obj JsonObj.nil) stOneEngine (by decide) rfl rfl rfl rfl⟩

/-- Claim C4: corint_engine_free on the null sentinel and
corint_string_free on the null sentinel are both no-ops: the observable
boundary state is returned unchanged. -/
theorem frees_null_noop (st : BState) :
    corint_engine_free none st = st ∧ corint_string_free none st = st :=
  ⟨rfl, rfl⟩

/-- Once the logging singleton is set, further bootstrap calls change
nothing. -/
theorem initLoggingN_fixed (m : Nat) (st : BState) :
    initLoggingN m (corint_init_logging st) = corint_init_logging st := by
  induction m generalizing st with
  | zero => rfl
  | succ k ih => exact ih (corint_init_logging st)

/-- Claim C5: corint_init_logging is idempotent: for every N at least 1,
N calls leave the process in the same observable state as exactly one
call. -/
theorem init_logging_idempotent (n : Nat) (st : BState) (h : 1 ≤ n) :
    initLoggingN n st = initLoggingN 1 st := by
  cases n with
  | zero => omega
  | succ k => exact initLoggingN_fixed k st

/-- Witness for claim C5 at three calls on the empty state. -/
theorem init_logging_idempotent_witness :
    1 ≤ 3 ∧ initLoggingN 3 stEmpty = initLoggingN 1 stEmpty :=
  ⟨by decide, init_logging_idempotent 3 stEmpty (by decide)⟩

/-- Claim C6: corint_version is deterministic within a build: two
successive calls, the first followed by an independent release, both
return non-null pointers whose contents are the same version bytes, and
those bytes are non-empty. -/
theorem version_stable (st : BState) :
    (corint_version st).1 = some st.nextId ∧
    readString (corint_version st).2 (corint_version st).1 = some corintVersionBytes ∧
    readString
      (corint_version (corint_string_free (corint_version st).1 (corint_version st).2)).2
      (corint_version (corint_string_free (corint_version st).1 (corint_version st).2)).1
      = some corintVersionBytes ∧
    corintVersionBytes ≠ [] := by
  refine ⟨rfl, ?_, ?_, by decide⟩
  · simp [corint_version, readString, List.find?]
  · simp [corint_version, corint_string_free, readString, List.find?]

/-- Claim C7: corint_engine_new is atomic on failure — when it returns
the null sentinel the boundary state is exactly the prior state, so no
partial state is observable and everything allocated during the attempt
has been released before return — and the path string is not retained:
the call's entire result depends on the path only through the external
loader's answer on it. -/
theorem engine_new_atomic (fs : List Nat → RepoLoad) (path : Option (List Nat))
    (st : BState) (bs bs2 : List Nat) :
    ((corint_engine_new fs path st).1 = none →
      (corint_engine_new fs path st).2 = st) ∧
    (fs bs = fs bs2 →
      corint_engine_new fs (some bs) st = corint_engine_new fs (some bs2) st) := by
  constructor
  · intro hnone
    cases path with
    | none => rfl
    | some b =>
      cases h : fs b with
      | ok => exact absurd hnone (by simp [corint_engine_new, h])
      | notFound => simp [corint_engine_new, h]
      | notReadable => simp [corint_engine_new, h]
      | invalidContents => simp [corint_engine_new, h]
      | exhausted => simp [corint_engine_new, h]
  · intro heq
    simp [corint_engine_new, heq]

/-- Witness for claim C7 at a loader that finds no path. -/
theorem engine_new_atomic_witness :
    ((corint_engine_new fsMissing (some [47]) stEmpty).1 = none ∧
      (corint_engine_new fsMissing (some [47]) stEmpty).2 = stEmpty) ∧
    (fsMissing [47] = fsMissing [48] ∧
      corint_engine_new fsMissing (some [47]) stEmpty =
        corint_engine_new fsMissing (some [48]) stEmpty) :=
  ⟨⟨rfl, (engine_new_atomic fsMissing (some [47]) stEmpty [47] [48]).1 rfl⟩,
   ⟨rfl, (engine_new_atomic fsMissing (some [47]) stEmpty [47] [48]).2 rfl⟩⟩

/-- Claim C8: for a non-null pointer returned by corint_engine_decide or
by corint_version, exactly one corint_string_free call on that pointer
frees it completely: the allocation is removed from the single boundary
string table — the same allocator that produced it — restoring the table
to its pre-call contents, and no entry under that pointer remains. -/
theorem string_free_complete (core : EvalCore) (allocOk : Bool)
    (engine : Option Nat) (request : Option (List Nat)) (st : BState)
    (p : Nat) (st2 : BState)
    (hw : ∀ kv ∈ st.strings, kv.1 < st.nextId)
    (heq : corint_engine_decide core allocOk engine request st = (some p, st2)) :
    ((corint_string_free (some p) st2).strings = st.strings ∧
      ∀ kv ∈ (corint_string_free (some p) st2).strings, kv.1 ≠ p) ∧
    ((corint_string_free (corint_version st).1 (corint_version st).2).strings
        = st.strings ∧
      ∀ kv ∈ (corint_string_free (corint_version st).1 (corint_version st).2).strings,
        kv.1 ≠ st.nextId) := by
  obtain ⟨hp, out, hst⟩ :=
    corint_engine_decide_success_inv core allocOk engine request st p st2 heq
  have h1 : (corint_string_free (some p) st2).strings = st.strings := by
    rw [hp, hst]; exact corint_string_free_fresh st out hw
  have h2 : (corint_string_free (corint_version st).1
      (corint_version st).2).strings = st.strings :=
    corint_string_free_fresh st corintVersionBytes hw
  refine ⟨⟨h1, ?_⟩, ⟨h2, ?_⟩⟩
  · rw [h1, hp]
    exact fun kv hkv => Nat.ne_of_lt (hw kv hkv)
  · rw [h2]
    exact fun kv hkv => Nat.ne_of_lt (hw kv hkv)

/-- Witness for claim C8: a concrete successful evaluation on a fresh
state, then one release, restores the empty string table. -/
theorem string_free_complete_witness :
    (∀ kv ∈ stOneEngine.strings, kv.1 < stOneEngine.nextId) ∧
    corint_engine_decide echoCore true (some 0) (some reqBytes) stOneEngine =
      (some 1, (corint_engine_decide echoCore true (some 0) (some reqBytes) stOneEngine).2) ∧
    (((corint_string_free (some 1)
        (corint_engine_decide echoCore true (some 0) (some reqBytes) stOneEngine).2).strings
        = stOneEngine.strings ∧
      ∀ kv ∈ (corint_string_free (some 1)
        (corint_engine_decide echoCore true (some 0) (some reqBytes) stOneEngine).2).strings,
        kv.1 ≠ 1) ∧
    ((corint_string_free (corint_version stOneEngine).1
        (corint_version stOneEngine).2).strings = stOneEngine.strings ∧
      ∀ kv ∈ (corint_string_free (corint_version stOneEngine).1
          (corint_version stOneEngine).2).strings,
        kv.1 ≠ stOneEngine.nextId)) :=
  ⟨by decide, rfl,
    string_free_complete echoCore true (some 0) (some reqBytes) stOneEngine 1
      (corint_engine_decide echoCore true (some 0) (some reqBytes) stOneEngine).2
      (by decide) rfl⟩

/-- Claim C9: the header declares every caller-supplied string as a
pointer to const char — the repository path of corint_engine_new, the
database URL of corint_engine_new_from_database, and the request JSON of
corint_engine_decide — fixing them read-only for the duration of the
call at the interface. -/
theorem caller_strings_const :
    headerArgs "corint_engine_new" = some [CType.constCharPtr] ∧
    headerArgs "corint_engine_new_from_database" = some [CType.constCharPtr] ∧
    headerArgs "corint_engine_decide" = some [CType.voidPtr, CType.constCharPtr] :=
  ⟨rfl, rfl, rfl⟩

/-- Claim C10: the interface fixes the relational backend of
corint_engine_new_from_database to PostgreSQL: the header documents the
database_url parameter as a PostgreSQL connection URL, passed as one
const char pointer. -/
theorem db_factory_postgresql :
    (∃ pre post : List Char,
      dbFactoryDoc.data =
        pre ++ ("PostgreSQL connection URL").data ++ post) ∧
    headerArgs "corint_engine_new_from_database" = some [CType.constCharPtr] :=
  ⟨⟨("Create a new decision engine from a PostgreSQL database\n\n@param database_url ").data,
    ("\n@return Engine handle, or NULL on failure").data, rfl⟩, rfl⟩
